import Mathlib

/-
  Verification of the 3D product-viewer core of the `visualization` repository.

  The development shallowly embeds the JavaScript functions of
  `src/frontend/src/components/ProductViewer.js` (`normalizeModel`,
  `handleScaleChange`, `handleModelLoad`), `AnimatedModel.js` (the
  bounding-box fit and the animation-playback effect),
  `AnimationControls.js` (`handlePrevious` / `handleNext`) and
  `utils/modelValidation.js` (`validateModelUrl`, `getModelType`,
  `validateLoadedModel`, `countMeshes`, `analyzeModelComplexity`,
  `countTriangles`).  JavaScript numbers are modelled as rationals,
  arrays as lists, and `null` / `undefined` as `Option`.
-/

/-! ## Vectors and bounding boxes (THREE.Vector3 / THREE.Box3) -/

/-- A 3D vector with rational coordinates, modelling `THREE.Vector3`. -/
structure Vec3 where
  x : ℚ
  y : ℚ
  z : ℚ
deriving DecidableEq

/-- An axis-aligned bounding box, modelling `THREE.Box3` as produced by
`Box3.setFromObject`.  An empty box (no geometry) is represented with
`maxC < minC` on some axis, as in three.js. -/
structure Box3 where
  minC : Vec3
  maxC : Vec3
deriving DecidableEq

/-- Embedding of `THREE.Box3.isEmpty`. -/
def Box3.isEmptyBox (b : Box3) : Prop :=
  b.maxC.x < b.minC.x ∨ b.maxC.y < b.minC.y ∨ b.maxC.z < b.minC.z

instance (b : Box3) : Decidable b.isEmptyBox := by
  unfold Box3.isEmptyBox; infer_instance

/-- Embedding of `THREE.Box3.getCenter`: `(min + max) / 2`, or the origin for an empty box. -/
def Box3.getCenter (b : Box3) : Vec3 :=
  if b.isEmptyBox then ⟨0, 0, 0⟩
  else ⟨(b.minC.x + b.maxC.x) / 2, (b.minC.y + b.maxC.y) / 2, (b.minC.z + b.maxC.z) / 2⟩

/-- Embedding of `THREE.Box3.getSize`: `max - min`, or the zero vector for an empty box. -/
def Box3.getSize (b : Box3) : Vec3 :=
  if b.isEmptyBox then ⟨0, 0, 0⟩
  else ⟨b.maxC.x - b.minC.x, b.maxC.y - b.minC.y, b.maxC.z - b.minC.z⟩

/-- The quantity `Math.max(size.x, size.y, size.z)` as used by both fitting routines. -/
def maxDim3 (v : Vec3) : ℚ :=
  max v.x (max v.y v.z)

/-! ## Model normalization (`ProductViewer.js` `normalizeModel`) -/

/-- The record returned by `normalizeModel` in `ProductViewer.js`
(the `boundingBox` field is the input box and is omitted). -/
structure NormalizationData where
  originalSize : Vec3
  center : Vec3
  normalizedScale : ℚ
  centeredPosition : Vec3
deriving DecidableEq

/-- Embedding of `normalizeModel` from `ProductViewer.js`: computes the
bounding-box center and size, `maxDimension`, the fit scale
`targetSize / maxDimension` (1 when `maxDimension` is not positive) and the
centered position `-center * scale` componentwise. -/
def normalizeModel (box : Box3) (targetSize : ℚ) : NormalizationData :=
  let center := box.getCenter
  let size := box.getSize
  let maxDimension := maxDim3 size
  let scale := if 0 < maxDimension then targetSize / maxDimension else 1
  { originalSize := size
    center := center
    normalizedScale := scale
    centeredPosition := ⟨-center.x * scale, -center.y * scale, -center.z * scale⟩ }

/-- Embedding of `handleScaleChange` from `ProductViewer.js`: the user scale
multiplier is applied relative to the normalized scale,
`setModelScale(normalizedScale * scale)`. -/
def handleScaleChange (normalizedScale mult : ℚ) : ℚ :=
  normalizedScale * mult

/-- The position/scale written onto `gltf.scene` by the fitting step. -/
structure SceneTransform where
  position : Vec3
  scaleFactor : ℚ
deriving DecidableEq

/-- Embedding of the bounding-box fit inside `AnimatedModel.js` (the
`enableBounds` block): the scene position is set to `-center` (unscaled,
via `position.copy(center).multiplyScalar(-1)`); when `maxDim > 0` the
scene scale is set to `(3.5 / maxDim) * scale` where `scale` is the
component's scale prop, otherwise the scene keeps its default scale 1. -/
def animatedModelFit (box : Box3) (scaleProp : ℚ) : SceneTransform :=
  let center := box.getCenter
  let size := box.getSize
  let maxDim := maxDim3 size
  { position := ⟨-center.x, -center.y, -center.z⟩
    scaleFactor := if 0 < maxDim then 35 / 10 / maxDim * scaleProp else 1 }

/-- Concrete unit box used in counterexamples: corners `(0,0,0)`–`(1,1,1)`,
so center `(1/2,1/2,1/2)` and `maxDim = 1`. -/
def cexUnitBox : Box3 :=
  ⟨⟨0, 0, 0⟩, ⟨1, 1, 1⟩⟩

/-- Concrete degenerate box used in counterexamples: a point model at
`(5,0,0)`, so all extents are zero but the center is not the origin. -/
def cexPointBox : Box3 :=
  ⟨⟨5, 0, 0⟩, ⟨5, 0, 0⟩⟩

/-! ## Evaluation lemmas for the concrete boxes -/

theorem cexUnitBox_not_empty : ¬ cexUnitBox.isEmptyBox := by
  norm_num [cexUnitBox, Box3.isEmptyBox]

theorem cexUnitBox_size : maxDim3 cexUnitBox.getSize = 1 := by
  norm_num [cexUnitBox, Box3.getSize, Box3.isEmptyBox, maxDim3]

theorem cexUnitBox_center : cexUnitBox.getCenter = ⟨1/2, 1/2, 1/2⟩ := by
  norm_num [cexUnitBox, Box3.getCenter, Box3.isEmptyBox]

theorem cexPointBox_not_empty : ¬ cexPointBox.isEmptyBox := by
  norm_num [cexPointBox, Box3.isEmptyBox]

theorem cexPointBox_size : maxDim3 cexPointBox.getSize = 0 := by
  norm_num [cexPointBox, Box3.getSize, Box3.isEmptyBox, maxDim3]

theorem cexPointBox_center : cexPointBox.getCenter = ⟨5, 0, 0⟩ := by
  norm_num [cexPointBox, Box3.getCenter, Box3.isEmptyBox]

/-- Unfolding lemma: the scale computed by `normalizeModel` when the maximum
extent is positive. -/
theorem normalizeModel_scale_of_pos (box : Box3) (t : ℚ)
    (h : 0 < maxDim3 box.getSize) :
    (normalizeModel box t).normalizedScale = t / maxDim3 box.getSize := by
  simp [normalizeModel, h]

/-- Unfolding lemma: the centered position computed by `normalizeModel` when
the maximum extent is positive. -/
theorem normalizeModel_position_of_pos (box : Box3) (t : ℚ)
    (h : 0 < maxDim3 box.getSize) :
    (normalizeModel box t).centeredPosition
      = ⟨-(box.getCenter.x) * (t / maxDim3 box.getSize),
         -(box.getCenter.y) * (t / maxDim3 box.getSize),
         -(box.getCenter.z) * (t / maxDim3 box.getSize)⟩ := by
  simp [normalizeModel, h]

/-- Unfolding lemma: `normalizeModel` on a degenerate (non-positive extent)
box returns scale 1 and position `-center`. -/
theorem normalizeModel_of_degenerate (box : Box3) (t : ℚ)
    (h : ¬ 0 < maxDim3 box.getSize) :
    (normalizeModel box t).normalizedScale = 1 ∧
    (normalizeModel box t).centeredPosition
      = ⟨-(box.getCenter.x), -(box.getCenter.y), -(box.getCenter.z)⟩ := by
  constructor
  · simp [normalizeModel, h]
  · simp [normalizeModel, h]

/-! ## Theorems for claims C1, C3, C8 -/

/-- C1 (counterexample): at the unit box with `targetSize = 3` and scale
multiplier `2`, the effective scale is `(targetSize / maxDim) * 2 = 6` as the
claim states, but the translation computed by `normalizeModel` is
`(-3/2, -3/2, -3/2)`, not `-center * 6 = (-3, -3, -3)` — the translation is
`-center` times the base normalized scale, not times the multiplied scale. -/
theorem normalize_translation_cex :
    handleScaleChange (normalizeModel cexUnitBox 3).normalizedScale 2 = 6 ∧
    (normalizeModel cexUnitBox 3).centeredPosition = ⟨-3/2, -3/2, -3/2⟩ ∧
    (⟨-3/2, -3/2, -3/2⟩ : Vec3) ≠
      ⟨-(cexUnitBox.getCenter.x) * 6, -(cexUnitBox.getCenter.y) * 6,
        -(cexUnitBox.getCenter.z) * 6⟩ := by
  have hs : (0 : ℚ) < maxDim3 cexUnitBox.getSize := by rw [cexUnitBox_size]; norm_num
  refine ⟨?_, ?_, ?_⟩
  · rw [handleScaleChange, normalizeModel_scale_of_pos cexUnitBox 3 hs, cexUnitBox_size]
    norm_num
  · rw [normalizeModel_position_of_pos cexUnitBox 3 hs, cexUnitBox_size, cexUnitBox_center]
    norm_num
  · rw [cexUnitBox_center]
    simp only [ne_eq, Vec3.mk.injEq]
    norm_num

/-- C1 (amended): for a box with strictly positive maximum extent, positive
target size and positive multiplier, the effective model scale after
`handleScaleChange` is `(targetSize / maxDim) * multiplier` and is strictly
positive; the translation of `normalizeModel` equals
`-center * (targetSize / maxDim)` — the base normalized scale, without the
multiplier.  The internal `AnimatedModel` fit uses the fixed target `3.5`
for its scale and translates by `-center` unscaled. -/
theorem normalize_scale_translation (box : Box3) (targetSize mult : ℚ)
    (hdim : 0 < maxDim3 box.getSize) (ht : 0 < targetSize) (hm : 0 < mult) :
    handleScaleChange (normalizeModel box targetSize).normalizedScale mult
      = targetSize / maxDim3 box.getSize * mult ∧
    0 < handleScaleChange (normalizeModel box targetSize).normalizedScale mult ∧
    (normalizeModel box targetSize).centeredPosition
      = ⟨-(box.getCenter.x) * (targetSize / maxDim3 box.getSize),
         -(box.getCenter.y) * (targetSize / maxDim3 box.getSize),
         -(box.getCenter.z) * (targetSize / maxDim3 box.getSize)⟩ ∧
    (animatedModelFit box mult).scaleFactor = 35 / 10 / maxDim3 box.getSize * mult ∧
    (animatedModelFit box mult).position
      = ⟨-(box.getCenter.x), -(box.getCenter.y), -(box.getCenter.z)⟩ := by
  have hscale : (normalizeModel box targetSize).normalizedScale
      = targetSize / maxDim3 box.getSize := by
    simp [normalizeModel, hdim]
  refine ⟨by rw [hscale]; rfl, ?_, ?_, ?_, ?_⟩
  · rw [hscale]
    exact mul_pos (div_pos ht hdim) hm
  · simp [normalizeModel, hdim]
  · simp [animatedModelFit, hdim]
  · simp [animatedModelFit]

/-- Witness for `normalize_scale_translation` at the unit box,
`targetSize = 3`, multiplier `2`. -/
theorem normalize_scale_translation_witness :
    0 < maxDim3 cexUnitBox.getSize ∧ (0 : ℚ) < 3 ∧ (0 : ℚ) < 2 ∧
    handleScaleChange (normalizeModel cexUnitBox 3).normalizedScale 2
      = 3 / maxDim3 cexUnitBox.getSize * 2 :=
  ⟨by rw [cexUnitBox_size]; norm_num, by norm_num, by norm_num,
    (normalize_scale_translation cexUnitBox 3 2
      (by rw [cexUnitBox_size]; norm_num) (by norm_num) (by norm_num)).1⟩

/-- C3 (counterexample): for the degenerate point box at `(5,0,0)` all extents
are zero, yet the translation computed by `normalizeModel` is `(-5,0,0)`, not
the origin claimed. -/
theorem degenerate_translation_cex :
    maxDim3 cexPointBox.getSize = 0 ∧
    (normalizeModel cexPointBox 3).centeredPosition ≠ ⟨0, 0, 0⟩ := by
  have hnot : ¬ 0 < maxDim3 cexPointBox.getSize := by
    rw [cexPointBox_size]; norm_num
  refine ⟨cexPointBox_size, ?_⟩
  rw [(normalizeModel_of_degenerate cexPointBox 3 hnot).2, cexPointBox_center]
  simp only [ne_eq, Vec3.mk.injEq]
  norm_num

/-- C3 (amended): when the bounding box has all-zero extents
(`maxDim = 0`), `normalizeModel` returns scale 1, so the effective scale
after the multiplier is the multiplier unchanged, and the translation is
`-center` — which is the origin exactly when the degenerate box's center is
the origin, in particular for an empty box (no geometry).  The computation
is total: the division branch is never taken. -/
theorem normalize_degenerate (box : Box3) (targetSize mult : ℚ)
    (hdim : maxDim3 box.getSize = 0) :
    (normalizeModel box targetSize).normalizedScale = 1 ∧
    handleScaleChange (normalizeModel box targetSize).normalizedScale mult = mult ∧
    (normalizeModel box targetSize).centeredPosition
      = ⟨-(box.getCenter.x), -(box.getCenter.y), -(box.getCenter.z)⟩ ∧
    (box.isEmptyBox → (normalizeModel box targetSize).centeredPosition = ⟨0, 0, 0⟩) := by
  have hnot : ¬ 0 < maxDim3 box.getSize := by rw [hdim]; exact lt_irrefl 0
  refine ⟨by simp [normalizeModel, hnot], ?_, by simp [normalizeModel, hnot], ?_⟩
  · simp [normalizeModel, hnot, handleScaleChange]
  · intro hempty
    simp [normalizeModel, hnot, Box3.getCenter, hempty]

/-- Witness for `normalize_degenerate` at the point box `(5,0,0)` with
`targetSize = 3` and multiplier `7`. -/
theorem normalize_degenerate_witness :
    maxDim3 cexPointBox.getSize = 0 ∧
    handleScaleChange (normalizeModel cexPointBox 3).normalizedScale 7 = 7 :=
  ⟨cexPointBox_size, (normalize_degenerate cexPointBox 3 7 cexPointBox_size).2.1⟩

/-- C8: `normalizeModel` is a pure function of the bounding box and target
size — two calls with identical inputs return identical results; there is no
hidden state in the embedding because the source computes only from its
arguments and the `targetSize` prop. -/
theorem normalize_deterministic (b b' : Box3) (t t' : ℚ)
    (hb : b = b') (ht : t = t') :
    normalizeModel b t = normalizeModel b' t' := by
  rw [hb, ht]

/-- Witness for `normalize_deterministic` at the unit box and target 3. -/
theorem normalize_deterministic_witness :
    cexUnitBox = cexUnitBox ∧ (3 : ℚ) = 3 ∧
    normalizeModel cexUnitBox 3 = normalizeModel cexUnitBox 3 :=
  ⟨rfl, rfl, normalize_deterministic cexUnitBox cexUnitBox 3 3 rfl rfl⟩

/-! ## Scene graphs (`THREE.Object3D`) and the complexity analyzer
(`utils/modelValidation.js`) -/

/-- A buffer attribute / index buffer with its element count
(`geometry.index.count`, `geometry.attributes.position.count`). -/
structure BufferAttribute where
  count : Nat
deriving DecidableEq

/-- A `BufferGeometry`: an optional index buffer and an optional position
attribute. -/
structure Geometry where
  index : Option BufferAttribute
  position : Option BufferAttribute
deriving DecidableEq

/-- A scene-graph node: its `type` string (meshes have `type === 'Mesh'`),
an optional geometry, and its children. -/
inductive Object3D where
  | mk (typ : String) (geometry : Option Geometry) (children : List Object3D)

/-- The `type` field of a node. -/
def Object3D.typ : Object3D → String
  | .mk t _ _ => t

/-- The `geometry` field of a node. -/
def Object3D.geometry : Object3D → Option Geometry
  | .mk _ g _ => g

/-- The `children` field of a node. -/
def Object3D.children : Object3D → List Object3D
  | .mk _ _ c => c

mutual
/-- Embedding of `countMeshes` from `modelValidation.js`: 1 for a node with
`type === 'Mesh'` plus the counts of all children, recursively. -/
def countMeshes : Object3D → Nat
  | .mk typ _ children =>
      (if typ = "Mesh" then 1 else 0) + countMeshesList children

/-- The `children.forEach` accumulation inside `countMeshes`. -/
def countMeshesList : List Object3D → Nat
  | [] => 0
  | c :: rest => countMeshes c + countMeshesList rest
end

/-- The floating-point contribution of a node's own geometry inside
`countTriangles`: `index.count / 3` when an index buffer exists, else
`position.count / 3` when a position attribute exists, else 0 — and only
for nodes with `type === 'Mesh'` and a geometry. -/
def geoTriangles (typ : String) (geometry : Option Geometry) : ℚ :=
  if typ = "Mesh" then
    match geometry with
    | some g =>
      match g.index with
      | some idx => (idx.count : ℚ) / 3
      | none =>
        match g.position with
        | some pos => (pos.count : ℚ) / 3
        | none => 0
    | none => 0
  else 0

mutual
/-- Embedding of `countTriangles` from `modelValidation.js`: the node's own
(possibly fractional) contribution plus the already-floored counts of the
children, floored with `Math.floor` on return. -/
def countTriangles : Object3D → Int
  | .mk typ geometry children =>
      Int.floor (geoTriangles typ geometry + (countTrianglesList children : ℚ))

/-- The `children.forEach` accumulation inside `countTriangles`. -/
def countTrianglesList : List Object3D → Int
  | [] => 0
  | c :: rest => countTriangles c + countTrianglesList rest
end

/-- Specification-side per-mesh triangle count: `count / 3` floored
(natural division), for mesh nodes that bear a geometry. -/
def specMeshTri (typ : String) (geometry : Option Geometry) : Nat :=
  if typ = "Mesh" then
    match geometry with
    | some g =>
      match g.index with
      | some idx => idx.count / 3
      | none =>
        match g.position with
        | some pos => pos.count / 3
        | none => 0
    | none => 0
  else 0

mutual
/-- Specification-side triangle count: the sum over geometry-bearing mesh
nodes of `count / 3` floored per mesh. -/
def specTriangles : Object3D → Nat
  | .mk typ geometry children => specMeshTri typ geometry + specTrianglesList children

/-- Sum of `specTriangles` over a list of nodes. -/
def specTrianglesList : List Object3D → Nat
  | [] => 0
  | c :: rest => specTriangles c + specTrianglesList rest
end

mutual
/-- All nodes of a scene graph, the root included. -/
def allNodes : Object3D → List Object3D
  | .mk typ geometry children => .mk typ geometry children :: allNodesList children

/-- All nodes of a forest. -/
def allNodesList : List Object3D → List Object3D
  | [] => []
  | c :: rest => allNodes c ++ allNodesList rest
end

/-- A loaded GLTF model: an optional `scene` and an optional list of
animation clips, identified by their names. -/
structure GLTFModel where
  scene : Option Object3D
  animations : Option (List String)

/-- The result record of `analyzeModelComplexity`.  The `unknown` branch of
the source carries a `textureCount` field instead of `hasAnimations`; the
embedding uses one record shape and fills `hasAnimations := false` there. -/
structure ComplexityInfo where
  complexity : String
  meshCount : Nat
  triangleCount : Int
  animationCount : Nat
  hasAnimations : Bool
deriving DecidableEq

/-- Embedding of `analyzeModelComplexity` from `modelValidation.js`:
`unknown` with zero counts when the model or its scene is missing; otherwise
the mesh/triangle counts with tier `high` when `triangleCount > 50000` or
`meshCount > 50`, else `medium` when `triangleCount > 10000` or
`meshCount > 20`, else `low`. -/
def analyzeModelComplexity (model : Option GLTFModel) : ComplexityInfo :=
  match model with
  | none => ⟨"unknown", 0, 0, 0, false⟩
  | some m =>
    match m.scene with
    | none => ⟨"unknown", 0, 0, 0, false⟩
    | some s =>
      let meshCount := countMeshes s
      let triangleCount := countTriangles s
      let animationCount := match m.animations with
        | some l => l.length
        | none => 0
      let complexity :=
        if triangleCount > 50000 ∨ meshCount > 50 then "high"
        else if triangleCount > 10000 ∨ meshCount > 20 then "medium"
        else "low"
      ⟨complexity, meshCount, triangleCount, animationCount, decide (animationCount > 0)⟩

/-- The result record of `validateLoadedModel`.  The invalid branches carry
`error` and an error `type`; the valid branch carries the mesh and animation
statistics. -/
structure ModelValidation where
  isValid : Bool
  error : Option String
  errType : Option String
  meshCount : Option Nat
  hasAnimations : Option Bool
  animationCount : Option Nat
deriving DecidableEq

/-- Embedding of `validateLoadedModel` from `modelValidation.js`: a missing
model is `null_model`, a model without a scene is `missing_scene`, a scene
with no children is `empty_scene`; otherwise the model is valid. -/
def validateLoadedModel (model : Option GLTFModel) : ModelValidation :=
  match model with
  | none =>
    ⟨false, some "Model object is null or undefined", some "null_model", none, none, none⟩
  | some m =>
    match m.scene with
    | none =>
      ⟨false, some "Model missing scene object", some "missing_scene", none, none, none⟩
    | some s =>
      if s.children.length = 0 then
        ⟨false, some "Model scene has no children (empty model)", some "empty_scene",
          none, none, none⟩
      else
        let animationCount := match m.animations with
          | some l => l.length
          | none => 0
        ⟨true, none, none, some (countMeshes s), some (decide (animationCount > 0)),
          some animationCount⟩

/-- Embedding of the validation gate inside the `AnimatedModel` load effect:
an invalid model is turned into an error (the `onError` path) and is never
reported as loaded; a valid one is passed on to `onLoad`. -/
def animatedModelLoadStep (gltf : GLTFModel) : Except String GLTFModel :=
  let v := validateLoadedModel (some gltf)
  if v.isValid then .ok gltf else .error (v.error.getD "")

/-! ## Bridge lemmas for the complexity analyzer -/

/-- Flooring `m / 3` over the rationals is natural division by 3. -/
theorem floor_natCast_div_three (m : ℕ) :
    Int.floor ((m : ℚ) / 3) = ((m / 3 : ℕ) : ℤ) := by
  have h0 : (0 : ℚ) ≤ (m : ℚ) / 3 := by positivity
  rw [← Int.natCast_floor_eq_floor h0]
  have h := Nat.floor_div_eq_div (α := ℚ) m 3
  simp only [Nat.cast_ofNat] at h
  rw [h]

/-- The floor of a node's own fractional contribution is the per-mesh
floored count. -/
theorem floor_geoTriangles (typ : String) (geometry : Option Geometry) :
    Int.floor (geoTriangles typ geometry) = (specMeshTri typ geometry : ℤ) := by
  unfold geoTriangles specMeshTri
  by_cases ht : typ = "Mesh"
  · simp only [ht, if_true]
    cases geometry with
    | none => simp
    | some g =>
      obtain ⟨gi, gp⟩ := g
      cases gi with
      | some idx => simp [floor_natCast_div_three]
      | none =>
        cases gp with
        | some pos => simp [floor_natCast_div_three]
        | none => simp
  · simp [ht]

mutual
/-- The code's `countTriangles` (nested flooring) computes exactly
the sum of per-mesh floored counts. -/
theorem countTriangles_eq_specAux :
    ∀ o : Object3D, countTriangles o = (specTriangles o : ℤ)
  | .mk typ geometry children => by
      rw [countTriangles, specTriangles,
        Int.floor_add_int (geoTriangles typ geometry) (countTrianglesList children),
        floor_geoTriangles, countTrianglesList_eq_specAux children]
      push_cast
      ring

/-- List version of `countTriangles_eq_specAux`. -/
theorem countTrianglesList_eq_specAux :
    ∀ l : List Object3D, countTrianglesList l = (specTrianglesList l : ℤ)
  | [] => by rw [countTrianglesList, specTrianglesList]; rfl
  | c :: rest => by
      rw [countTrianglesList, specTrianglesList,
        countTriangles_eq_specAux c, countTrianglesList_eq_specAux rest]
      push_cast
      ring
end

mutual
/-- The code's `countMeshes` counts exactly the mesh-typed nodes of the graph. -/
theorem countMeshes_eq_countPAux :
    ∀ o : Object3D,
      countMeshes o = (allNodes o).countP (fun n => decide (n.typ = "Mesh"))
  | .mk typ geometry children => by
      rw [countMeshes, allNodes, List.countP_cons,
        countMeshesList_eq_countPAux children]
      simp [Object3D.typ]
      omega

/-- List version of `countMeshes_eq_countPAux`. -/
theorem countMeshesList_eq_countPAux :
    ∀ l : List Object3D,
      countMeshesList l = (allNodesList l).countP (fun n => decide (n.typ = "Mesh"))
  | [] => by rw [countMeshesList, allNodesList]; rfl
  | c :: rest => by
      rw [countMeshesList, allNodesList, List.countP_append,
        countMeshes_eq_countPAux c, countMeshesList_eq_countPAux rest]
end

/-- Core evaluation lemma: the tier reported by `analyzeModelComplexity` for
a model with a scene, as a function of the two counts. -/
theorem analyzeModelComplexity_tier (m : GLTFModel) (s : Object3D)
    (hs : m.scene = some s) :
    (analyzeModelComplexity (some m)).complexity =
      (if countTriangles s > 50000 ∨ countMeshes s > 50 then "high"
       else if countTriangles s > 10000 ∨ countMeshes s > 20 then "medium"
       else "low") := by
  obtain ⟨sc, an⟩ := m
  simp only [GLTFModel.scene] at hs
  subst hs
  rfl

/-- A mesh node with an indexed geometry of 18000 indices (6000 triangles). -/
def mesh18k : Object3D :=
  .mk "Mesh" (some ⟨some ⟨18000⟩, none⟩) []

/-- A scene of 10 such meshes: 60000 triangles, 10 meshes. -/
def scene60k : Object3D :=
  .mk "Group" none
    [mesh18k, mesh18k, mesh18k, mesh18k, mesh18k, mesh18k, mesh18k, mesh18k,
     mesh18k, mesh18k]

theorem scene60k_triangles : countTriangles scene60k = 60000 := by
  have h : specTriangles scene60k = 60000 := by
    simp [scene60k, mesh18k, specTriangles, specTrianglesList, specMeshTri]
  rw [countTriangles_eq_specAux, h]
  rfl

theorem scene60k_meshes : countMeshes scene60k = 10 := by
  simp [scene60k, mesh18k, countMeshes, countMeshesList]

/-! ## Theorems for claims C6, C7, C9 -/

/-- C6: the complexity tier is `high` when `triangleCount > 50000` or
`meshCount > 50`, else `medium` when `triangleCount > 10000` or
`meshCount > 20`, else `low`; in particular 60000 triangles with 10 meshes
is `high`, 5000 triangles with 5 meshes is `low`, and exactly 10001
triangles (with at most 20 meshes) is `medium`. -/
theorem complexity_tiers (m : GLTFModel) (s : Object3D) (hs : m.scene = some s) :
    ((countTriangles s > 50000 ∨ countMeshes s > 50) →
        (analyzeModelComplexity (some m)).complexity = "high") ∧
    (countTriangles s ≤ 50000 → countMeshes s ≤ 50 →
        (countTriangles s > 10000 ∨ countMeshes s > 20) →
        (analyzeModelComplexity (some m)).complexity = "medium") ∧
    (countTriangles s ≤ 10000 → countMeshes s ≤ 20 →
        (analyzeModelComplexity (some m)).complexity = "low") ∧
    (countTriangles s = 60000 → countMeshes s = 10 →
        (analyzeModelComplexity (some m)).complexity = "high") ∧
    (countTriangles s = 5000 → countMeshes s = 5 →
        (analyzeModelComplexity (some m)).complexity = "low") ∧
    (countTriangles s = 10001 → countMeshes s ≤ 20 →
        (analyzeModelComplexity (some m)).complexity = "medium") := by
  rw [analyzeModelComplexity_tier m s hs]
  refine ⟨?_, ?_, ?_, ?_, ?_, ?_⟩
  · intro h
    rw [if_pos h]
  · intro h1 h2 h3
    rw [if_neg (by omega), if_pos h3]
  · intro h1 h2
    rw [if_neg (by omega), if_neg (by omega)]
  · intro h1 h2
    rw [if_pos (by omega)]
  · intro h1 h2
    rw [if_neg (by omega), if_neg (by omega)]
  · intro h1 h2
    rw [if_neg (by omega), if_pos (by omega)]

/-- Witness for `complexity_tiers`: the 60000-triangle, 10-mesh scene is
classified `high`. -/
theorem complexity_tiers_witness :
    (GLTFModel.mk (some scene60k) none).scene = some scene60k ∧
    countTriangles scene60k = 60000 ∧ countMeshes scene60k = 10 ∧
    (analyzeModelComplexity (some (GLTFModel.mk (some scene60k) none))).complexity
      = "high" :=
  ⟨rfl, scene60k_triangles, scene60k_meshes,
    (complexity_tiers (GLTFModel.mk (some scene60k) none) scene60k rfl).2.2.2.1
      scene60k_triangles scene60k_meshes⟩

/-- C7: for every scene graph, the analyzer's triangle count equals the sum
over geometry-bearing mesh nodes of the floored `count / 3` (index-buffer
count when an index buffer exists, else raw position count), and the mesh
count equals the number of mesh-typed nodes in the graph. -/
theorem triangle_mesh_counts (o : Object3D) :
    countTriangles o = (specTriangles o : ℤ) ∧
    countMeshes o = (allNodes o).countP (fun n => decide (n.typ = "Mesh")) :=
  ⟨countTriangles_eq_specAux o, countMeshes_eq_countPAux o⟩

/-- C9: a loaded model whose scene has zero children is rejected as invalid
with the `empty_scene` error and is turned into an error by the load gate,
never reported as loaded; a model with a scene and at least one child passes
validation. -/
theorem validate_empty_scene (m : GLTFModel) (s : Object3D)
    (hs : m.scene = some s) :
    (s.children = [] →
        (validateLoadedModel (some m)).isValid = false ∧
        (validateLoadedModel (some m)).errType = some "empty_scene" ∧
        animatedModelLoadStep m
          = .error "Model scene has no children (empty model)") ∧
    (s.children ≠ [] →
        (validateLoadedModel (some m)).isValid = true ∧
        (validateLoadedModel (some m)).error = none ∧
        animatedModelLoadStep m = .ok m) := by
  obtain ⟨sc, an⟩ := m
  simp only [GLTFModel.scene] at hs
  subst hs
  obtain ⟨typ, geometry, children⟩ := s
  constructor
  · intro hc
    simp only [Object3D.children] at hc
    subst hc
    refine ⟨rfl, rfl, rfl⟩
  · intro hc
    simp only [Object3D.children] at hc
    have hlen : ¬ (Object3D.mk typ geometry children).children.length = 0 := by
      simpa [Object3D.children] using hc
    refine ⟨?_, ?_, ?_⟩
    · simp [validateLoadedModel, Object3D.children, List.length_eq_zero, hc]
    · simp [validateLoadedModel, Object3D.children, List.length_eq_zero, hc]
    · simp [animatedModelLoadStep, validateLoadedModel, Object3D.children,
        List.length_eq_zero, hc]

/-- Witness for `validate_empty_scene`: a one-mesh scene passes validation. -/
theorem validate_empty_scene_witness :
    (GLTFModel.mk (some (Object3D.mk "Scene" none [mesh18k])) none).scene
        = some (Object3D.mk "Scene" none [mesh18k]) ∧
    (Object3D.mk "Scene" none [mesh18k]).children ≠ [] ∧
    (validateLoadedModel
        (some (GLTFModel.mk (some (Object3D.mk "Scene" none [mesh18k])) none))).isValid
      = true :=
  ⟨rfl, by simp [Object3D.children], 
    ((validate_empty_scene (GLTFModel.mk (some (Object3D.mk "Scene" none [mesh18k])) none)
        (Object3D.mk "Scene" none [mesh18k]) rfl).2
      (by simp [Object3D.children])).1⟩

/-! ## URL validation (`validateModelUrl`, `getModelType`) -/

/-- Whether `pat` is a prefix of `s` (character lists). -/
def charsStartWith : List Char → List Char → Bool
  | _, [] => true
  | [], _ :: _ => false
  | a :: s, b :: p => a == b && charsStartWith s p

/-- Whether `pat` occurs somewhere in `s` (character lists), modelling JavaScript
`String.prototype.includes`. -/
def charsContain : List Char → List Char → Bool
  | [], pat => pat.isEmpty
  | a :: rest, pat => charsStartWith (a :: rest) pat || charsContain rest pat

/-- JavaScript `s.includes(pat)`. -/
def jsIncludes (s pat : String) : Bool :=
  charsContain s.data pat.data

/-- JavaScript `s.toLowerCase()` (ASCII, as relevant for the extensions). -/
def jsToLower (s : String) : String :=
  ⟨s.data.map Char.toLower⟩

/-- Embedding of `getModelType` from `modelValidation.js`: `glb` when the
lower-cased URL contains `.glb` anywhere, else `gltf` when it contains
`.gltf`, else `unknown`; an empty (falsy) URL is `unknown`. -/
def getModelType (url : String) : String :=
  if url = "" then "unknown"
  else if jsIncludes (jsToLower url) ".glb" then "glb"
  else if jsIncludes (jsToLower url) ".gltf" then "gltf"
  else "unknown"

/-- The result record of `validateModelUrl`.  The `type` field holds the
error kind on failure and the model type on success, as in the source. -/
structure UrlValidation where
  isValid : Bool
  error : Option String
  typ : String
deriving DecidableEq

/-- Embedding of `validateModelUrl` from `modelValidation.js`.  The
`new URL(url)` well-formedness test is external (the WHATWG URL parser) and
is passed in as the oracle `wellFormed`.  A URL is accepted when it is
non-empty, its lower-cased text contains `.glb` or `.gltf` anywhere, and the
oracle accepts it. -/
def validateModelUrl (wellFormed : String → Bool) (url : String) : UrlValidation :=
  if url = "" then
    ⟨false, some "Model URL is required", "missing_url"⟩
  else if !(jsIncludes (jsToLower url) ".glb" || jsIncludes (jsToLower url) ".gltf") then
    ⟨false, some "Model must be one of these formats: .glb, .gltf", "unsupported_format"⟩
  else if !(wellFormed url) then
    ⟨false, some "Invalid URL format", "invalid_url"⟩
  else
    ⟨true, none, getModelType url⟩

/-! ## Theorem for claim C10 -/

/-- C10: a non-empty URL accepted by the URL parser is declared valid as soon
as its lower-cased text contains `.glb` or `.gltf` anywhere — not only as the
terminal extension — and its reported type is `glb` whenever `.glb` occurs
anywhere, regardless of the actual extension. -/
theorem url_substring_validation (wellFormed : String → Bool) (url : String)
    (hne : url ≠ "") (hwf : wellFormed url = true)
    (hsup : jsIncludes (jsToLower url) ".glb" = true ∨
            jsIncludes (jsToLower url) ".gltf" = true) :
    (validateModelUrl wellFormed url).isValid = true ∧
    (validateModelUrl wellFormed url).typ = getModelType url ∧
    (jsIncludes (jsToLower url) ".glb" = true →
        (validateModelUrl wellFormed url).typ = "glb") := by
  have hor : (jsIncludes (jsToLower url) ".glb" ||
      jsIncludes (jsToLower url) ".gltf") = true := by
    rcases hsup with h | h <;> simp [h]
  refine ⟨?_, ?_, ?_⟩
  · simp [validateModelUrl, hne, hor, hwf]
  · simp [validateModelUrl, hne, hor, hwf]
  · intro hglb
    simp [validateModelUrl, hne, hor, hwf, getModelType, hglb]

/-- Witness for `url_substring_validation`: a well-formed URL whose `.GLB`
occurs only inside the query string — the actual extension is `.png` — is
accepted, with type `glb`. -/
theorem url_substring_validation_witness :
    ("http://h/a.png?f=.GLB" : String) ≠ "" ∧
    (fun _ : String => true) "http://h/a.png?f=.GLB" = true ∧
    jsIncludes (jsToLower "http://h/a.png?f=.GLB") ".glb" = true ∧
    (validateModelUrl (fun _ => true) "http://h/a.png?f=.GLB").isValid = true :=
  ⟨by decide, rfl, by decide,
    (url_substring_validation (fun _ => true) "http://h/a.png?f=.GLB"
      (by decide) rfl (Or.inl (by decide))).1⟩

/-! ## Default-animation selection (`ProductViewer.js` `handleModelLoad`) -/

/-- The clip-name extraction in `handleModelLoad`:
`gltf.animations.map(clip => clip.name).filter(name => name)` — falsy
(empty) names are dropped. -/
def extractAnimNames (rawNames : List String) : List String :=
  rawNames.filter (fun n => n != "")

/-- Embedding of the animation block of `handleModelLoad` in
`ProductViewer.js`, as the pair (selected clip, play flag) starting from the
initial state `(none, false)`: when some clips are present and auto-play is
declared, the declared default is selected when it is truthy and contained
in the extracted clip names, else the first extracted name when any exists;
in every other case the state is left at `(none, false)`. -/
def handleModelLoadAnim (rawNames : List String) (defaultAnimation : String)
    (autoPlay : Bool) : Option String × Bool :=
  if rawNames.length > 0 then
    let animNames := extractAnimNames rawNames
    if autoPlay then
      if defaultAnimation != "" && animNames.contains defaultAnimation then
        (some defaultAnimation, true)
      else if animNames.length > 0 then
        (animNames.head?, true)
      else
        (none, false)
    else (none, false)
  else (none, false)

/-! ## Theorem for claim C2 -/

/-- C2: for clip lists of truthy (non-empty) loader names, the default
selection returns no clip with playback stopped when auto-play is off or
the list is empty; the declared default when it is non-empty and present;
and otherwise the first clip in loader order. -/
theorem select_default_animation (rawNames : List String)
    (defaultAnimation : String) (autoPlay : Bool)
    (hclean : ∀ n ∈ rawNames, n ≠ "") :
    ((autoPlay = false ∨ rawNames = []) →
        handleModelLoadAnim rawNames defaultAnimation autoPlay = (none, false)) ∧
    (autoPlay = true → defaultAnimation ≠ "" → defaultAnimation ∈ rawNames →
        handleModelLoadAnim rawNames defaultAnimation autoPlay
          = (some defaultAnimation, true)) ∧
    (autoPlay = true → rawNames ≠ [] →
        (defaultAnimation = "" ∨ defaultAnimation ∉ rawNames) →
        handleModelLoadAnim rawNames defaultAnimation autoPlay
          = (rawNames.head?, true)) := by
  have hfilter : extractAnimNames rawNames = rawNames := by
    rw [extractAnimNames, List.filter_eq_self]
    intro a ha
    simpa using hclean a ha
  refine ⟨?_, ?_, ?_⟩
  · rintro (h | h)
    · by_cases hlen : rawNames.length > 0 <;>
        simp [handleModelLoadAnim, h, hlen]
    · simp [handleModelLoadAnim, h]
  · intro hap hd hmem
    have hlen : rawNames.length > 0 := List.length_pos.mpr (by
      rintro rfl; exact absurd hmem (List.not_mem_nil _))
    have hd' : (defaultAnimation != "") = true := by simpa using hd
    simp [handleModelLoadAnim, hlen, hap, hfilter, hd', List.contains, hmem]
  · intro hap hne hmiss
    have hlen : rawNames.length > 0 := List.length_pos.mpr hne
    have hcond : (defaultAnimation != "" &&
        rawNames.contains defaultAnimation) = false := by
      rcases hmiss with h | h
      · simp [h]
      · simp [List.contains, h]
    simp only [handleModelLoadAnim, hlen, hap, hfilter, if_pos hlen, if_true]
    rw [if_neg (by simp only [hcond]; exact Bool.false_ne_true)]

/-- Witness for `select_default_animation`: with clips `["walk", "run"]`,
declared default `"idle"` (absent) and auto-play on, the first clip is
selected. -/
theorem select_default_animation_witness :
    (∀ n ∈ ["walk", "run"], n ≠ "") ∧
    handleModelLoadAnim ["walk", "run"] "idle" true = (some "walk", true) :=
  ⟨by decide,
    (select_default_animation ["walk", "run"] "idle" true (by decide)).2.2
      rfl (by decide) (Or.inr (by decide))⟩

/-! ## Animation cycling (`AnimationControls.js` `handlePrevious` / `handleNext`) -/

/-- JavaScript `animations.indexOf(selectedAnimation)`: the index of the
first occurrence, or `-1` when the value is absent or `null`. -/
def jsIndexOf (l : List String) (x : Option String) : Int :=
  match x with
  | none => -1
  | some s => if s ∈ l then (l.indexOf s : Int) else -1

/-- JavaScript `animations[i]`: the element at a non-negative in-range
index, `undefined` otherwise. -/
def jsGetElem (l : List String) (i : Int) : Option String :=
  if 0 ≤ i then l.get? i.toNat else none

/-- Embedding of `handleNext` in `AnimationControls.js`: no-op on an empty
list; otherwise the element at `currentIndex >= length - 1 ? 0 :
currentIndex + 1` becomes the selection. -/
def handleNext (animations : List String) (selectedAnimation : Option String) :
    Option String :=
  if animations.length = 0 then selectedAnimation
  else
    let currentIndex := jsIndexOf animations selectedAnimation
    let nextIndex : Int :=
      if currentIndex ≥ (animations.length : Int) - 1 then 0 else currentIndex + 1
    jsGetElem animations nextIndex

/-- Embedding of `handlePrevious` in `AnimationControls.js`: no-op on an
empty list; otherwise the element at `currentIndex <= 0 ? length - 1 :
currentIndex - 1` becomes the selection. -/
def handlePrevious (animations : List String) (selectedAnimation : Option String) :
    Option String :=
  if animations.length = 0 then selectedAnimation
  else
    let currentIndex := jsIndexOf animations selectedAnimation
    let prevIndex : Int :=
      if currentIndex ≤ 0 then (animations.length : Int) - 1 else currentIndex - 1
    jsGetElem animations prevIndex

/-! ## Theorem for claim C4 -/

/-- C4: cycling is a no-op on an empty clip list; on a non-empty list with
the selection present, `next` moves to index `(i + 1) % length` and
`previous` to index `(i + length - 1) % length` (one step with wraparound);
with a selection that is absent or `none`, `next` resolves to the first
element and `previous` to the last. -/
theorem cycle_animation (l : List String) (s : String) (sel : Option String) :
    (handleNext [] sel = sel ∧ handlePrevious [] sel = sel) ∧
    (l ≠ [] → s ∈ l →
        handleNext l (some s) = l.get? ((l.indexOf s + 1) % l.length) ∧
        handlePrevious l (some s) = l.get? ((l.indexOf s + l.length - 1) % l.length)) ∧
    (l ≠ [] → s ∉ l →
        handleNext l (some s) = l.head? ∧
        handlePrevious l (some s) = l.getLast?) ∧
    (l ≠ [] →
        handleNext l none = l.head? ∧ handlePrevious l none = l.getLast?) := by
  have hlast : ∀ (m : List String), m ≠ [] →
      jsGetElem m ((m.length : Int) - 1) = m.getLast? := by
    intro m hm
    have hlen : 0 < m.length := List.length_pos.mpr hm
    have h0 : (0 : Int) ≤ (m.length : Int) - 1 := by omega
    have htn : ((m.length : Int) - 1).toNat = m.length - 1 := by omega
    rw [jsGetElem, if_pos h0, htn, List.getLast?_eq_getElem?, List.get?_eq_getElem?]
  refine ⟨⟨rfl, rfl⟩, ?_, ?_, ?_⟩
  · intro hne hmem
    have hlen : 0 < l.length := List.length_pos.mpr hne
    have hlen0 : ¬ l.length = 0 := by omega
    have hi : l.indexOf s < l.length := List.indexOf_lt_length.mpr hmem
    constructor
    · rw [handleNext, if_neg hlen0]
      simp only [jsIndexOf, if_pos hmem]
      by_cases hcase : ((l.indexOf s : Int) ≥ (l.length : Int) - 1)
      · rw [if_pos hcase]
        have hieq : l.indexOf s = l.length - 1 := by omega
        have hmod : (l.indexOf s + 1) % l.length = 0 := by
          rw [hieq, Nat.sub_add_cancel hlen, Nat.mod_self]
        rw [hmod, jsGetElem, if_pos le_rfl]
        rfl
      · rw [if_neg hcase]
        have h2 : l.indexOf s + 1 < l.length := by omega
        rw [Nat.mod_eq_of_lt h2, jsGetElem, if_pos (by omega)]
        congr 1
    · rw [handlePrevious, if_neg hlen0]
      simp only [jsIndexOf, if_pos hmem]
      by_cases hcase : ((l.indexOf s : Int) ≤ 0)
      · rw [if_pos hcase]
        have hieq : l.indexOf s = 0 := by omega
        have hmod : (l.indexOf s + l.length - 1) % l.length = l.length - 1 := by
          rw [hieq, Nat.zero_add, Nat.mod_eq_of_lt (by omega)]
        rw [hmod, jsGetElem, if_pos (by omega)]
        congr 1
        omega
      · rw [if_neg hcase]
        have h1 : 1 ≤ l.indexOf s := by omega
        have hsplit : l.indexOf s + l.length - 1 = (l.indexOf s - 1) + l.length := by
          omega
        have hmod : (l.indexOf s + l.length - 1) % l.length = l.indexOf s - 1 := by
          rw [hsplit, Nat.add_mod_right, Nat.mod_eq_of_lt (by omega)]
        rw [hmod, jsGetElem, if_pos (by omega)]
        congr 1
        omega
  · intro hne hmiss
    have hlen : 0 < l.length := List.length_pos.mpr hne
    have hlen0 : ¬ l.length = 0 := by omega
    constructor
    · rw [handleNext, if_neg hlen0]
      simp only [jsIndexOf, if_neg hmiss]
      rw [if_neg (by omega), jsGetElem, if_pos (by omega)]
      exact List.get?_zero l
    · rw [handlePrevious, if_neg hlen0]
      simp only [jsIndexOf, if_neg hmiss]
      rw [if_pos (by omega)]
      exact hlast l hne
  · intro hne
    have hlen : 0 < l.length := List.length_pos.mpr hne
    have hlen0 : ¬ l.length = 0 := by omega
    constructor
    · rw [handleNext, if_neg hlen0]
      simp only [jsIndexOf]
      rw [if_neg (by omega), jsGetElem, if_pos (by omega)]
      exact List.get?_zero l
    · rw [handlePrevious, if_neg hlen0]
      simp only [jsIndexOf]
      rw [if_pos (by omega)]
      exact hlast l hne

/-- Witness for `cycle_animation`: on `["a","b","c"]` with selection `"c"`,
`next` wraps to index 0. -/
theorem cycle_animation_witness :
    (["a", "b", "c"] : List String) ≠ [] ∧
    "c" ∈ (["a", "b", "c"] : List String) ∧
    handleNext ["a", "b", "c"] (some "c")
      = ["a", "b", "c"].get?
          ((["a", "b", "c"].indexOf "c" + 1) % (["a", "b", "c"] : List String).length) :=
  ⟨by decide, by decide,
    ((cycle_animation ["a", "b", "c"] "c" none).2.1 (by decide) (by decide)).1⟩

/-! ## Manual clip requests (`AnimatedModel.js` playback effect,
`ProductViewer.js` `handleAnimationChange`) -/

/-- The fallback loop of the playback effect: the first truthy candidate
name for which an action exists (`actions[name]`, i.e. the name is among
the loaded clip names). -/
def firstMatchingAction (candidates : List String) (names : List String) :
    Option String :=
  match candidates with
  | [] => none
  | c :: rest =>
    if c != "" && names.contains c then some c else firstMatchingAction rest names

/-- Embedding of the animation-playback effect in `AnimatedModel.js`: which
clip ends up playing, given the loaded clip names, the requested
`currentAnimation` and the `playAnimations` flag.  Nothing plays when the
clip list is empty or playback is off; the requested clip plays when truthy
and present; otherwise the first present of
`['idle', 'animation', 'action', 'default', names[0]]` plays. -/
def choosePlayback (names : List String) (currentAnimation : Option String)
    (playAnimations : Bool) : Option String :=
  if names.length = 0 then none
  else if playAnimations && decide (names.length > 0) then
    let animationToPlay :=
      match currentAnimation with
      | some c =>
        if c != "" && names.contains c then some c
        else firstMatchingAction
          ["idle", "animation", "action", "default", names.headD ""] names
      | none =>
        firstMatchingAction
          ["idle", "animation", "action", "default", names.headD ""] names
    match animationToPlay with
    | some a => if a != "" && names.contains a then some a else none
    | none => none
  else none

/-- Embedding of `handleAnimationChange` in `ProductViewer.js`: the selection
becomes the requested name; a truthy request also switches playback on. -/
def handleAnimationChange (animationName : Option String) (oldPlay : Bool) :
    Option String × Bool :=
  (animationName,
    if (match animationName with | some s => s != "" | none => false) then true
    else oldPlay)

/-- A user-driven "play this clip" request: `handleAnimationChange` updates
the viewer state, then the playback effect decides what actually plays. -/
def manualPlayRequest (names : List String) (oldPlay : Bool)
    (requested : Option String) : Option String :=
  let st := handleAnimationChange requested oldPlay
  choosePlayback names st.1 st.2

/-- Soundness of the fallback: whatever it returns is truthy and among the
loaded clip names. -/
theorem firstMatchingAction_sound (candidates names : List String) (a : String)
    (h : firstMatchingAction candidates names = some a) :
    (a != "" && names.contains a) = true := by
  induction candidates with
  | nil => simp [firstMatchingAction] at h
  | cons c rest ih =>
    rw [firstMatchingAction] at h
    by_cases hc : (c != "" && names.contains c) = true
    · rw [if_pos hc] at h
      injection h with h'
      subst h'
      exact hc
    · rw [if_neg hc] at h
      exact ih h

/-! ## Theorems for claim C5 -/

/-- C5 (counterexample): requesting the nonexistent clip `"fly"` with loaded
clips `["walk"]` is not a no-op — the code falls back and plays `"walk"`
instead of playing nothing. -/
theorem manual_play_cex :
    "fly" ∉ (["walk"] : List String) ∧
    manualPlayRequest ["walk"] false (some "fly") = some "walk" ∧
    (some "walk" : Option String) ≠ none := by
  refine ⟨by decide, by decide, by decide⟩

/-- C5 (amended): a requested clip that exists in the loaded list is played
verbatim regardless of the previous play state (and of the product auto-play
flag, which does not enter this path); a requested clip that does not exist
is not a no-op: the selection state becomes the requested name but the
effect instead plays the first present clip among
`['idle', 'animation', 'action', 'default', names[0]]` (necessarily one of
the loaded clips), and only an empty clip list plays nothing. -/
theorem manual_play (names : List String) (oldPlay : Bool) (r : String)
    (hr : r ≠ "") :
    (r ∈ names → manualPlayRequest names oldPlay (some r) = some r) ∧
    (names ≠ [] → r ∉ names →
        manualPlayRequest names oldPlay (some r)
          = firstMatchingAction
              ["idle", "animation", "action", "default", names.headD ""] names) ∧
    (∀ a, firstMatchingAction
        ["idle", "animation", "action", "default", names.headD ""] names = some a →
        a ∈ names) ∧
    ((handleAnimationChange (some r) oldPlay).1 = some r ∧
        (handleAnimationChange (some r) oldPlay).2 = true) ∧
    (names = [] → manualPlayRequest names oldPlay (some r) = none) := by
  have hr' : (r != "") = true := by simpa using hr
  have hstate : handleAnimationChange (some r) oldPlay = (some r, true) := by
    simp [handleAnimationChange, hr']
  refine ⟨?_, ?_, ?_, ?_, ?_⟩
  · intro hmem
    have hlen0 : ¬ names.length = 0 := by
      have hne : names ≠ [] := by rintro rfl; exact absurd hmem (List.not_mem_nil _)
      simpa [List.length_eq_zero] using hne
    have hcond : (r != "" && names.contains r) = true := by
      simp [hr', List.contains, hmem]
    rw [manualPlayRequest, hstate]
    simp only [choosePlayback, if_neg hlen0]
    rw [if_pos (by simp only [Bool.true_and, decide_eq_true_eq]; omega)]
    simp [hr, hmem]
  · intro hne hmiss
    have hlen0 : ¬ names.length = 0 := by simpa [List.length_eq_zero] using hne
    have hcond : (r != "" && names.contains r) = false := by
      simp [List.contains, hmiss]
    rw [manualPlayRequest, hstate]
    simp only [choosePlayback, if_neg hlen0]
    rw [if_pos (by simp only [Bool.true_and, decide_eq_true_eq]; omega)]
    simp only [hcond]
    rw [if_neg (by simp)]
    cases hfm : firstMatchingAction
        ["idle", "animation", "action", "default", names.headD ""] names with
    | none => rfl
    | some a =>
      have hc := firstMatchingAction_sound _ _ _ hfm
      have h1 : a ≠ "" := by simpa using ((Bool.and_eq_true _ _).mp hc).1
      have h2 : a ∈ names := by
        simpa [List.contains] using ((Bool.and_eq_true _ _).mp hc).2
      simp [h1, h2]
  · intro a hfm
    have hc := firstMatchingAction_sound _ _ _ hfm
    simpa [List.contains] using ((Bool.and_eq_true _ _).mp hc).2
  · rw [hstate]
    exact ⟨rfl, rfl⟩
  · rintro rfl
    rw [manualPlayRequest, hstate]
    rfl

/-- Witness for `manual_play`: with clips `["walk"]` and play previously
off, requesting `"walk"` plays `"walk"` verbatim. -/
theorem manual_play_witness :
    ("walk" : String) ≠ "" ∧ "walk" ∈ (["walk"] : List String) ∧
    manualPlayRequest ["walk"] false (some "walk") = some "walk" :=
  ⟨by decide, by decide,
    (manual_play ["walk"] false "walk" (by decide)).1 (by decide)⟩
